import Mathlib

/-!
Shallow embedding of the payme fee-computation and payment-event reconciliation
core (src/payme/services/fees.py, stripe_event_handler.py, stripe_webhook.py,
payment_links/factory.py, db/repositories.py, api/v1/routes/transfers.py), with
theorems settling the frozen claims about it.

Conventions of the embedding:
 - Python floats are modelled as exact rationals; `round()` is modelled as
   round-half-to-even (Python 3 semantics).
 - Money amounts are integers in minor units, as in the source.
 - Dict-shaped Stripe payloads are modelled as structures whose fields are the
   keys the code reads; an absent key is `none`.
 - A raised-and-uncaught exception is modelled as a distinguished result value;
   a raise that the source converts to a `return False`/`None` is folded into
   that return, as the source does.
 - DynamoDB is modelled as in its documentation: `put_item` overwrites the row
   with the same primary key, `update_item` creates the item when absent,
   `Query` walks the partition in sort-key order and applies `Limit` to the
   items read BEFORE evaluating any `FilterExpression`.
 - Numeric values handed to boto3 in `ExpressionAttributeValues` keep their
   Python type (`DynNum`): boto3's TypeSerializer serializes an int but raises
   TypeError ("Float types are not supported. Use Decimal types instead.") on
   every Python float, so a repository update called with a float raises,
   modelled as `none`.
-/

namespace Payme

/-- Python str.lower(), structurally (character-wise ASCII lowercasing). -/
def strLower (s : String) : String := ⟨s.data.map Char.toLower⟩

/-- Lexicographic comparison of character lists by code point. -/
def charListLt : List Char → List Char → Bool
  | [], [] => false
  | [], _ :: _ => true
  | _ :: _, [] => false
  | a :: as, b :: bs => if a < b then true else if b < a then false else charListLt as bs

/-- Python `a < b` on strings: lexicographic by code point (DynamoDB orders string
sort keys the same way, by utf8 bytes, which agrees on the ASCII keys used here). -/
def strLt (a b : String) : Bool := charListLt a.data b.data

/-- Python str.startswith, structurally. -/
def strStartsWith (s p : String) : Bool := p.data.isPrefixOf s.data

/-- Python str.strip(), structurally (leading and trailing whitespace removed). -/
def strTrim (s : String) : String :=
  ⟨((s.data.dropWhile Char.isWhitespace).reverse.dropWhile Char.isWhitespace).reverse⟩

/-- Python 3 round(): round half to even (bankers rounding), on exact rationals. -/
def pyRound (q : ℚ) : ℤ :=
  let f := ⌊q⌋
  let r := q - (f : ℚ)
  if r < 1/2 then f
  else if 1/2 < r then f + 1
  else if f % 2 = 0 then f else f + 1

/-- Defaults of core/settings.py: fixed_fee = 50 (cents), service_fee_percent = 5.0,
stripe_fee_percent = 0.0. -/
structure Settings where
  fixed_fee : ℤ
  service_fee_percent : ℚ
  stripe_fee_percent : ℚ

/-- The settings instance with the source defaults (no environment overrides). -/
def settings : Settings := ⟨50, 5, 0⟩

/-- Embeds fees._multiplier: 1 / (1 - (svc + stripe)/100); `none` models the
ValueError raised when the combined percentage is ≥ 100. -/
def multiplier (service_fee_percent stripe_fee_percent : ℚ) : Option ℚ :=
  let combined_pct := service_fee_percent + stripe_fee_percent
  if 100 ≤ combined_pct then none
  else some (1 / (1 - combined_pct / 100))

/-- Embeds fees._round_up_fee_major: round a fee (in major units) up to
human-friendly steps whose size grows with the fee. -/
def round_up_fee_major (value : ℚ) : ℚ :=
  let step : ℚ :=
    if value < 1 then 1/5
    else if value < 5 then 1
    else if value < 20 then 5
    else if value < 50 then 10
    else 20
  (⌈value / step⌉ : ℚ) * step

/-- The _USD_TIER_FEES_CENTS tuple (40, 80, 200, 300, 1000, 2000, 4000, 6000, 10000),
indexed by tier. -/
def usdTierFee : Nat → ℤ
  | 0 => 40
  | 1 => 80
  | 2 => 200
  | 3 => 300
  | 4 => 1000
  | 5 => 2000
  | 6 => 4000
  | 7 => 6000
  | _ => 10000

/-- Tier selection of fees._tier_fixed_fee: the first index whose threshold in
_USD_TIER_THRESHOLDS_CENTS = (1000, 2000, 5000, 10000, 50000, 100000, 500000, 1000000)
admits the amount, else the final tier 8; the source loop unrolled. -/
def tierIndex (amount_cents : ℤ) : Nat :=
  if amount_cents ≤ 1000 then 0
  else if amount_cents ≤ 2000 then 1
  else if amount_cents ≤ 5000 then 2
  else if amount_cents ≤ 10000 then 3
  else if amount_cents ≤ 50000 then 4
  else if amount_cents ≤ 100000 then 5
  else if amount_cents ≤ 500000 then 6
  else if amount_cents ≤ 1000000 then 7
  else 8

/-- Embeds the fees._USD_TO_CURRENCY_RATE dict lookup with default 1.0. -/
def usdToCurrencyRate (c : String) : ℚ :=
  if c = "usd" then 1
  else if c = "eur" then 19/20
  else if c = "gbp" then 4/5
  else if c = "bgn" then 37/20
  else if c = "ron" then 47/10
  else if c = "all" then 95
  else 1

/-- The per-tier fee in local-currency cents: tier fee converted at `fx` and rounded
up to human-friendly steps (the body of fees._tier_fixed_fee after tier selection). -/
def tierFeeCents (fx : ℚ) (tier_index : Nat) : ℤ :=
  let usd_fee_cents := usdTierFee tier_index
  let converted_fee_major : ℚ := ((usd_fee_cents : ℚ) / 100) * fx
  let rounded_fee_major := round_up_fee_major converted_fee_major
  pyRound (rounded_fee_major * 100)

/-- Embeds fees._tier_fixed_fee: fixed fee schedule by amount tier, converted per
currency (`(currency or "usd").lower()`) and rounded to simple local steps. -/
def tier_fixed_fee (amount_cents : ℤ) (currency : String) : ℤ :=
  let normalized_currency := strLower (if currency = "" then "usd" else currency)
  let fx := usdToCurrencyRate normalized_currency
  tierFeeCents fx (tierIndex amount_cents)

/-- Result tuple of fees.amount_with_fee:
(total_cents, effective_service_fee_percent, stripe_fee_percent, service_fee_cents). -/
structure FeeQuote where
  total_cents : ℤ
  effective_service_pct : ℚ
  stripe_pct : ℚ
  service_fee_cents : ℤ
deriving DecidableEq

/-- Embeds fees.amount_with_fee (the "SOURCE OF TRUTH" in the source). The service
percentage is hard-coded to 0 in the body ("Service percentage is intentionally not
charged anymore"); the service_fee_percent argument is accepted but unused, exactly
as in the source. `none` models a raised ValueError. -/
def amount_with_fee (amount_cents : ℤ) (currency : String) (fixed_fee : Option ℤ)
    (service_fee_percent : Option ℚ) (stripe_fee_percent : Option ℚ) : Option FeeQuote :=
  if amount_cents < 0 then none
  else
    let fixed : ℤ := match fixed_fee with
      | none => tier_fixed_fee amount_cents currency
      | some f => f
    let svc_pct : ℚ := 0
    let stripe_pct : ℚ := match stripe_fee_percent with
      | none => settings.stripe_fee_percent
      | some p => p
    match multiplier svc_pct stripe_pct with
    | none => none
    | some m =>
      let total_cents : ℤ := pyRound (((amount_cents : ℚ) + (fixed : ℚ)) * m)
      let service_fee_cents : ℤ := fixed
      let effective_service_pct : ℚ :=
        if 0 < total_cents then ((service_fee_cents : ℚ) * 100) / (total_cents : ℚ) else 0
      some ⟨total_cents, effective_service_pct, stripe_pct, service_fee_cents⟩

/-- Embeds fees.base_amount_from_total: it inverts the settings-based formula
(fixed = settings.fixed_fee, percents from settings), not the tier schedule that
amount_with_fee actually uses. `none` models a raised ValueError. -/
def base_amount_from_total (total_cents : ℤ) : Option ℤ :=
  if total_cents < 0 then none
  else
    match multiplier settings.service_fee_percent settings.stripe_fee_percent with
    | none => none
    | some m => some (pyRound ((total_cents : ℚ) / m - (settings.fixed_fee : ℚ)))

/-- A numeric value as handed to boto3 in a DynamoDB ExpressionAttributeValues
entry, tagged with its Python type: boto3's TypeSerializer serializes an int but
raises TypeError ("Float types are not supported. Use Decimal types instead.") on
every Python float. The floats this code produces are float() of integral
metadata strings, whose IEEE values are exact, so the numeric value is carried
as the integer it equals. -/
inductive DynNum where
  | int (n : ℤ)
  | float (n : ℤ)
deriving DecidableEq

/-- The numeric value, as read by the pure-Python comparisons that run before any
boto3 serialization. -/
def DynNum.val : DynNum → ℤ
  | .int n => n
  | .float n => n

/-- boto3 TypeSerializer on a numeric value: an int serializes, a float raises. -/
def serializeNum : DynNum → Option ℤ
  | .int n => some n
  | .float _ => none

/-- Embeds stripe_event_handler._earnings_from_base_amount: float(extracted["base_amount"]).
The result is a Python FLOAT (of the integral metadata amount, so its numeric value
is that integer exactly); a missing base_amount makes float(None) raise TypeError,
modelled as `none`. -/
def earnings_from_base_amount (base_amount : Option ℤ) : Option DynNum :=
  match base_amount with
  | none => none
  | some v => some (.float v)

/-- Python truthiness of an optional string: absent and "" are falsy. -/
def strTruthy : Option String → Bool
  | none => false
  | some s => s ≠ ""

/-- Python `a or b` where a is an optional string and b a string. -/
def pyOrStr (a : Option String) (b : String) : String :=
  match a with
  | some s => if s = "" then b else s
  | none => b

/-- Python `a or b` on optional strings (None and "" falsy). -/
def pyOrOptStr (a b : Option String) : Option String :=
  match a with
  | some s => if s = "" then b else some s
  | none => b

/-- Python `a or b` where a is an optional integer and b an integer (None and 0 falsy). -/
def pyOrInt (a : Option ℤ) (b : ℤ) : ℤ :=
  match a with
  | some v => if v = 0 then b else v
  | none => b

/-- Python `", ".join(p for p in parts if p)`: keep only truthy parts. -/
def joinAddressParts (parts : List (Option String)) : String :=
  String.intercalate ", " (parts.filterMap (fun p =>
    match p with
    | some s => if s = "" then none else some s
    | none => none))

/-- The metadata bag attached at link-creation time (user_id, link_id, base_amount).
base_amount values are numeric strings in the source, modelled as integers; `none`
models an absent key. -/
structure EventMetadata where
  user_id : Option String
  link_id : Option String
  base_amount : Option ℤ
deriving DecidableEq

/-- A Stripe address object (the keys read by the extractors). -/
structure StripeAddress where
  line1 : Option String
  line2 : Option String
  city : Option String
  postal_code : Option String
  country : Option String
deriving DecidableEq

/-- A Stripe billing_details object. -/
structure BillingDetails where
  email : Option String
  name : Option String
  phone : Option String
  address : Option StripeAddress
deriving DecidableEq

/-- An entry of charges.data on a payment intent. -/
structure ChargeData where
  billing_details : Option BillingDetails
  receipt_email : Option String
deriving DecidableEq

/-- The dict-shaped payment_intent/charge webhook object: exactly the keys the two
extractors read; an absent key is `none`. The charge's payment_intent reference may
be an expanded object in the source ("isinstance(payment_intent_id, dict)"), and is
modelled by its id. -/
structure StripeEventObject where
  id : Option String
  payment_intent : Option String
  amount_received : Option ℤ
  amount : Option ℤ
  currency : Option String
  created : Option ℤ
  metadata : EventMetadata
  charges_data : List ChargeData
  billing_details : Option BillingDetails
  receipt_email : Option String
deriving DecidableEq

/-- The canonical attribution record produced by the extractors. -/
structure Extracted where
  user_id : String
  link_id : String
  base_amount : Option ℤ
  amount : ℤ
  currency : String
  payment_intent_id : String
  created : Option ℤ
  customer_email : Option String
  customer_name : Option String
  customer_phone : Option String
  customer_address : Option String
deriving DecidableEq

/-- Customer fields from a billing_details dict plus receipt_email fallback: the
block shared by _extract_from_payment_intent (on charges.data[0]) and
_extract_from_charge (on the charge itself). -/
def customerFieldsFromBilling (bd : Option BillingDetails) (receipt_email : Option String) :
    Option String × Option String × Option String × Option String :=
  let email := pyOrOptStr (bd.bind BillingDetails.email) receipt_email
  let name0 := bd.bind BillingDetails.name
  let name := if strTruthy name0 then name0 else none
  let phone0 := bd.bind BillingDetails.phone
  let phone := if strTruthy phone0 then phone0 else none
  let address := (bd.bind BillingDetails.address).map (fun a =>
    joinAddressParts [a.line1, a.line2, a.city, a.postal_code, a.country])
  (email, name, phone, address)

/-- Embeds stripe_event_handler._extract_from_payment_intent: requires truthy
user_id/link_id metadata and a positive settled amount
(amount_received or amount or 0); `none` models the unattributable skip. -/
def extract_from_payment_intent (obj : StripeEventObject) : Option Extracted :=
  let metadata := obj.metadata
  if ¬ (strTruthy metadata.user_id = true ∧ strTruthy metadata.link_id = true) then none
  else
    let base_amount := metadata.base_amount
    let amount := pyOrInt obj.amount_received (pyOrInt obj.amount 0)
    if amount ≤ 0 then none
    else
      let cust :=
        match obj.charges_data.head? with
        | none => (none, none, none, none)
        | some first_charge =>
          customerFieldsFromBilling first_charge.billing_details first_charge.receipt_email
      some {
        user_id := (metadata.user_id.getD ""),
        link_id := (metadata.link_id.getD ""),
        base_amount := base_amount,
        amount := amount,
        currency := strLower (pyOrStr obj.currency "usd"),
        payment_intent_id := pyOrStr obj.id "",
        created := obj.created,
        customer_email := cust.1,
        customer_name := cust.2.1,
        customer_phone := cust.2.2.1,
        customer_address := cust.2.2.2 }

/-- Embeds stripe_event_handler._extract_from_charge: like the payment-intent
extractor but the amount comes from "amount", the payment id from
payment_intent or id, and billing details sit on the charge itself. -/
def extract_from_charge (obj : StripeEventObject) : Option Extracted :=
  let metadata := obj.metadata
  if ¬ (strTruthy metadata.user_id = true ∧ strTruthy metadata.link_id = true) then none
  else
    let base_amount := metadata.base_amount
    let amount := pyOrInt obj.amount 0
    if amount ≤ 0 then none
    else
      let cust := customerFieldsFromBilling obj.billing_details obj.receipt_email
      some {
        user_id := (metadata.user_id.getD ""),
        link_id := (metadata.link_id.getD ""),
        base_amount := base_amount,
        amount := amount,
        currency := strLower (pyOrStr obj.currency "usd"),
        payment_intent_id := pyOrStr obj.payment_intent (pyOrStr obj.id ""),
        created := obj.created,
        customer_email := cust.1,
        customer_name := cust.2.1,
        customer_phone := cust.2.2.1,
        customer_address := cust.2.2.2 }

/-- Convert days since 1970-01-01 to (year, month, day) in the proleptic Gregorian
calendar (standard civil-from-days algorithm); models the date part of
datetime.fromtimestamp(·, tz=utc). -/
def civilFromDays (z0 : ℤ) : ℤ × ℤ × ℤ :=
  let z := z0 + 719468
  let era := Int.fdiv z 146097
  let doe := z - era * 146097
  let yoe := (doe - doe / 1460 + doe / 36524 - doe / 146096) / 365
  let y := yoe + era * 400
  let doy := doe - (365 * yoe + yoe / 4 - yoe / 100)
  let mp := (5 * doy + 2) / 153
  let d := doy - (153 * mp + 2) / 5 + 1
  let m := mp + (if mp < 10 then 3 else -9)
  ((if m ≤ 2 then y + 1 else y), m, d)

/-- Zero-pad a day or month number to two digits. -/
def pad2 (n : ℤ) : String :=
  if n < 10 then "0" ++ toString n else toString n

/-- strftime("%Y-%m-%d") of a unix timestamp at UTC. -/
def dateStrOfUnix (t : ℤ) : String :=
  let ymd := civilFromDays (Int.fdiv t 86400)
  toString ymd.1 ++ "-" ++ pad2 ymd.2.1 ++ "-" ++ pad2 ymd.2.2

/-- datetime.fromtimestamp(t, utc).isoformat() at seconds precision. -/
def isoOfUnix (t : ℤ) : String :=
  let secs := Int.emod t 86400
  dateStrOfUnix t ++ "T" ++ pad2 (secs / 3600) ++ ":" ++ pad2 (secs / 60 % 60) ++ ":" ++
    pad2 (secs % 60) ++ "+00:00"

/-- Embeds stripe_event_handler._date_transaction_id: sort key "YYYY-MM-DD#payment_intent_id";
a falsy created (absent or 0) uses the current UTC date, supplied by the environment. -/
def date_transaction_id (now_date : String) (created_unix : Option ℤ) (payment_intent_id : String) :
    String :=
  let date_str := match created_unix with
    | some t => if t ≠ 0 then dateStrOfUnix t else now_date
    | none => now_date
  date_str ++ "#" ++ payment_intent_id

/-- A row of the transactions table (PK user_id, SK date_transaction_id). Customer
fields are stored as "" when absent, as in TransactionsRepository.put. -/
structure Transaction where
  user_id : String
  date_transaction_id : String
  payment_intent_id : String
  link_id : String
  amount : ℤ
  currency : String
  status : String
  created_at : String
  refunded : Bool
  customer_email : String
  customer_name : String
  customer_phone : String
  customer_address : String
  stripe_account_id : Option String
deriving DecidableEq

/-- The running aggregates of a payment link row touched by reconciliation. -/
structure LinkAggregates where
  earnings_amount : ℤ
  total_amount_paid : ℤ
deriving DecidableEq

/-- A row of the stripe-accounts table (PK user_id): status plus the two
per-currency balances, as insertion-ordered dicts. -/
structure StripeAccountItem where
  user_id : String
  stripe_account_id : String
  status : String
  earnings : List (String × ℤ)
  pending_earnings : List (String × ℤ)
deriving DecidableEq

/-- The storage touched by the reconciliation and account-lifecycle handlers. -/
structure DBState where
  transactions : List Transaction
  payment_links : List (String × LinkAggregates)
  stripe_accounts : List StripeAccountItem
deriving DecidableEq

/-- Dict lookup in an insertion-ordered association list. -/
def assocGet (m : List (String × ℤ)) (k : String) : Option ℤ :=
  (m.find? (fun p => p.1 == k)).map (fun p => p.2)

/-- Dict write in an insertion-ordered association list (update in place, else append). -/
def assocSet (m : List (String × ℤ)) (k : String) (v : ℤ) : List (String × ℤ) :=
  if (m.find? (fun p => p.1 == k)).isSome then
    m.map (fun p => if p.1 == k then (k, v) else p)
  else m ++ [(k, v)]

/-- Remove the given keys from an association list (DynamoDB REMOVE). -/
def assocRemove (m : List (String × ℤ)) (ks : List String) : List (String × ℤ) :=
  m.filter (fun p => ! ks.contains p.1)

/-- Embeds TransactionsRepository.put: DynamoDB put_item overwrites the row with the
same (user_id, date_transaction_id) primary key, otherwise inserts. -/
def transactionsPut (txns : List Transaction) (t : Transaction) : List Transaction :=
  if txns.any (fun u => u.user_id == t.user_id && u.date_transaction_id == t.date_transaction_id) then
    txns.map (fun u =>
      if u.user_id == t.user_id && u.date_transaction_id == t.date_transaction_id then t else u)
  else txns ++ [t]

/-- Insert a row into a list kept ascending by date_transaction_id. -/
def insertByDate (t : Transaction) : List Transaction → List Transaction
  | [] => [t]
  | u :: us =>
    if strLt u.date_transaction_id t.date_transaction_id then u :: insertByDate t us
    else t :: u :: us

/-- The partition's rows in sort-key (date_transaction_id) order, as a DynamoDB Query
reads them. -/
def sortByDate (l : List Transaction) : List Transaction :=
  l.foldr insertByDate []

/-- Embeds TransactionsRepository.get_by_payment_intent_id: Query(user partition,
FilterExpression payment_intent_id = ·, Limit=1). DynamoDB applies Limit to the
items read, in sort-key order, BEFORE evaluating the filter, so only the partition's
first row is ever inspected. -/
def get_by_payment_intent_id (txns : List Transaction) (user_id payment_intent_id : String) :
    Option Transaction :=
  let limited := (sortByDate (txns.filter (fun t => t.user_id == user_id))).take 1
  (limited.filter (fun t => t.payment_intent_id == payment_intent_id)).head?

/-- Embeds PaymentLinksRepository.add_payment_result: raise ValueError on a negative
amount, then update_item atomically adds earnings and total paid (if_not_exists 0;
update_item creates the row when absent). `none` models a raise: the explicit
ValueError, or boto3 rejecting a float value when serializing
ExpressionAttributeValues. -/
def add_payment_result (links : List (String × LinkAggregates)) (link_id : String)
    (earnings_amount total_amount : DynNum) : Option (List (String × LinkAggregates)) :=
  if earnings_amount.val < 0 ∨ total_amount.val < 0 then none
  else match serializeNum earnings_amount, serializeNum total_amount with
    | some e, some t =>
      if (links.find? (fun p => p.1 == link_id)).isSome then
        some (links.map (fun q =>
          if q.1 == link_id then
            (link_id, ⟨q.2.earnings_amount + e, q.2.total_amount_paid + t⟩)
          else q))
      else some (links ++ [(link_id, ⟨e, t⟩)])
    | _, _ => none

/-- Apply f to the first stripe-accounts row with this user_id; DynamoDB update_item
creates the item when absent. -/
def updateAccount : List StripeAccountItem → String → (StripeAccountItem → StripeAccountItem) →
    List StripeAccountItem
  | [], user_id, f => [f ⟨user_id, "", "", [], []⟩]
  | a :: rest, user_id, f =>
    if a.user_id == user_id then f a :: rest
    else a :: updateAccount rest user_id f

/-- Embeds StripeAccountRepository.add_pending_earnings:
pending_earnings[currency.lower()] += amount, with if_not_exists defaults. `none`
models boto3 raising on a float amount when serializing ExpressionAttributeValues. -/
def add_pending_earnings (accounts : List StripeAccountItem) (user_id : String)
    (amount_cents : DynNum) (currency : String) : Option (List StripeAccountItem) :=
  match serializeNum amount_cents with
  | none => none
  | some n =>
    let c := strLower currency
    some (updateAccount accounts user_id (fun a =>
      { a with pending_earnings :=
          (assocSet a.pending_earnings c ((assocGet a.pending_earnings c).getD 0 + n)) }))

/-- Embeds StripeAccountRepository.add_earnings: earnings[currency.lower()] += amount.
`none` models boto3 raising on a float amount. -/
def add_earnings (accounts : List StripeAccountItem) (user_id : String)
    (amount_cents : DynNum) (currency : String) : Option (List StripeAccountItem) :=
  match serializeNum amount_cents with
  | none => none
  | some n =>
    let c := strLower currency
    some (updateAccount accounts user_id (fun a =>
      { a with earnings :=
          (assocSet a.earnings c ((assocGet a.earnings c).getD 0 + n)) }))

/-- Embeds StripeAccountRepository.get_pending_earnings: the positive entries of the
user's pending_earnings map ({} when the user or map is absent). -/
def get_pending_earnings (accounts : List StripeAccountItem) (user_id : String) :
    List (String × ℤ) :=
  match accounts.find? (fun a => a.user_id == user_id) with
  | none => []
  | some a => a.pending_earnings.filter (fun p => decide (0 < p.2))

/-- Embeds StripeAccountRepository.clear_pending_earnings: with no currency list
(or an empty one) the whole map is reset to {}; otherwise only the named keys,
lowercased, are removed. -/
def clear_pending_earnings (accounts : List StripeAccountItem) (user_id : String)
    (only_currencies : Option (List String)) : List StripeAccountItem :=
  match only_currencies with
  | none => updateAccount accounts user_id (fun a => { a with pending_earnings := [] })
  | some cs =>
    if cs = [] then updateAccount accounts user_id (fun a => { a with pending_earnings := [] })
    else updateAccount accounts user_id (fun a =>
      { a with pending_earnings := assocRemove a.pending_earnings (cs.map strLower) })

/-- Embeds StripeAccountRepository.update_status. -/
def update_status (accounts : List StripeAccountItem) (user_id status : String) :
    List StripeAccountItem :=
  updateAccount accounts user_id (fun a => { a with status := status })

/-- Embeds StripeAccountRepository.get_by_stripe_account_id: GSI query with Limit=1,
modelled as the first row with this stripe_account_id. -/
def get_by_stripe_account_id (accounts : List StripeAccountItem) (stripe_account_id : String) :
    Option StripeAccountItem :=
  accounts.find? (fun a => a.stripe_account_id == stripe_account_id)

/-- Result of the best-effort customer-details lookup
(_fetch_payment_intent_customer_details). -/
structure CustomerDetailsOut where
  customer_email : Option String
  customer_name : Option String
  customer_phone : Option String
  customer_address : Option String
deriving DecidableEq

/-- The handlers' external collaborators, modelled as pure per-run oracles: the wall
clock (date and isoformat of now, UTC) for rows without a created timestamp, the
Stripe checkout-session/payment-intent customer lookup, and the outcome of
stripe.Transfer.create per (currency, amount, destination). -/
structure Env where
  now_date : String
  now_iso : String
  fetch_payment_intent_customer_details : String → Option String → CustomerDetailsOut
  transfer_ok : String → ℤ → String → Bool

/-- Outcome of a handler call: a returned boolean, or an exception escaping it. -/
inductive HandlerResult where
  | ret (b : Bool)
  | raises
deriving DecidableEq

/-- The customer-details backfill of handle_payment_succeeded (lines 364-374): when
any customer field is still missing, fetch details and fill each missing field with
a truthy fetched value. -/
def fillCustomerDetails (env : Env) (payment_intent_id : String) (account_id : Option String)
    (ex : Extracted) : Extracted :=
  if ex.customer_email = none ∨ ex.customer_name = none ∨ ex.customer_phone = none ∨
      ex.customer_address = none then
    let details := env.fetch_payment_intent_customer_details payment_intent_id account_id
    let upd := fun (cur fetched : Option String) =>
      match cur with
      | some v => some v
      | none => if strTruthy fetched then fetched else none
    { ex with
      customer_email := upd ex.customer_email details.customer_email,
      customer_name := upd ex.customer_name details.customer_name,
      customer_phone := upd ex.customer_phone details.customer_phone,
      customer_address := upd ex.customer_address details.customer_address }
  else ex

/-- The external payment id normalization of handle_payment_succeeded (lines 355-357):
extracted payment_intent_id, else the object id (default "unknown"), prefixed with
"pi_" when not already. -/
def normalizedPaymentIntentId (obj : StripeEventObject) (ex : Extracted) : String :=
  let pi0 := if ex.payment_intent_id ≠ "" then ex.payment_intent_id else obj.id.getD "unknown"
  if strStartsWith pi0 "pi_" then pi0 else "pi_" ++ pi0

/-- Embeds stripe_event_handler.handle_payment_succeeded for
payment_intent.succeeded / charge.succeeded. Steps, as in the source: extract
(skip when unattributable), normalize the payment id, idempotency lookup, backfill
customer fields, earnings := float(base_amount) — a Python FLOAT; the call raises
TypeError when the metadata is missing and sits before the try block — then inside
try: store the Transaction (all its attributes serialize), call add_payment_result
with the float earnings, add pending_earnings when platform-held and earnings > 0,
add earnings when earnings > 0; any exception inside the try (in particular boto3
rejecting the float in ExpressionAttributeValues) logs and returns false, keeping
whatever was already written. -/
def handle_payment_succeeded (env : Env) (event_type : String) (data : Option StripeEventObject)
    (account_id : Option String) (db : DBState) : HandlerResult × DBState :=
  match data with
  | none => (.ret false, db)
  | some obj =>
    let extracted? : Option (Option Extracted) :=
      if event_type = "payment_intent.succeeded" then some (extract_from_payment_intent obj)
      else if event_type = "charge.succeeded" then some (extract_from_charge obj)
      else none
    match extracted? with
    | none => (.ret false, db)
    | some none => (.ret false, db)
    | some (some extracted0) =>
      let user_id := extracted0.user_id
      let link_id := extracted0.link_id
      let amount := extracted0.amount
      let payment_intent_id := normalizedPaymentIntentId obj extracted0
      if (get_by_payment_intent_id db.transactions user_id payment_intent_id).isSome then
        (.ret true, db)
      else
        let extracted := fillCustomerDetails env payment_intent_id account_id extracted0
        match earnings_from_base_amount extracted.base_amount with
        | none => (.raises, db)
        | some earnings =>
          let date_sk := date_transaction_id env.now_date extracted.created payment_intent_id
          let created_at := match extracted.created with
            | some t => if t ≠ 0 then isoOfUnix t else env.now_iso
            | none => env.now_iso
          let row : Transaction := {
            user_id := user_id,
            date_transaction_id := date_sk,
            payment_intent_id := payment_intent_id,
            link_id := link_id,
            amount := amount,
            currency := extracted.currency,
            status := "succeeded",
            created_at := created_at,
            refunded := false,
            customer_email := extracted.customer_email.getD "",
            customer_name := extracted.customer_name.getD "",
            customer_phone := extracted.customer_phone.getD "",
            customer_address := extracted.customer_address.getD "",
            stripe_account_id := account_id }
          let txns1 := transactionsPut db.transactions row
          match add_payment_result db.payment_links link_id earnings (.int amount) with
          | none => (.ret false, { db with transactions := txns1 })
          | some links1 =>
            match (if account_id = none ∧ 0 < earnings.val then
                add_pending_earnings db.stripe_accounts user_id earnings extracted.currency
              else some db.stripe_accounts) with
            | none => (.ret false, { db with transactions := txns1, payment_links := links1 })
            | some accounts1 =>
              match (if 0 < earnings.val then
                  add_earnings accounts1 user_id earnings extracted.currency
                else some accounts1) with
              | none => (.ret false, ⟨txns1, links1, accounts1⟩)
              | some accounts2 => (.ret true, ⟨txns1, links1, accounts2⟩)

/-- The earnings map of the first stripe-accounts row for the user ([] when absent). -/
def earningsMapAt (accounts : List StripeAccountItem) (user_id : String) : List (String × ℤ) :=
  ((accounts.find? (fun a => a.user_id == user_id)).map (fun a => a.earnings)).getD []

/-- The pending_earnings map of the first stripe-accounts row for the user. -/
def pendingMapAt (accounts : List StripeAccountItem) (user_id : String) : List (String × ℤ) :=
  ((accounts.find? (fun a => a.user_id == user_id)).map (fun a => a.pending_earnings)).getD []

/-- The status of the first stripe-accounts row for the user. -/
def statusAt (accounts : List StripeAccountItem) (user_id : String) : Option String :=
  (accounts.find? (fun a => a.user_id == user_id)).map (fun a => a.status)

/-- The earnings balance a seller holds for a currency key (0 when absent). -/
def accountEarnings (db : DBState) (user_id currency_key : String) : ℤ :=
  (assocGet (earningsMapAt db.stripe_accounts user_id) currency_key).getD 0

/-- The pending-earnings balance for a currency key (0 when absent). -/
def accountPendingEarnings (db : DBState) (user_id currency_key : String) : ℤ :=
  (assocGet (pendingMapAt db.stripe_accounts user_id) currency_key).getD 0

/-- The whole pending_earnings map of the user's account row ([] when absent). -/
def pendingMap (db : DBState) (user_id : String) : List (String × ℤ) :=
  pendingMapAt db.stripe_accounts user_id

/-- The status of the user's account row. -/
def accountStatus (db : DBState) (user_id : String) : Option String :=
  statusAt db.stripe_accounts user_id

/-- The first stripe-accounts row for the user, or the fresh item update_item would
create (DynamoDB update_item on an absent key). -/
def rowOrDefault (accounts : List StripeAccountItem) (u : String) : StripeAccountItem :=
  (accounts.find? (fun a => a.user_id == u)).getD ⟨u, "", "", [], []⟩

/-- The earnings_amount aggregate of a payment link (0 when absent). -/
def linkEarnings (db : DBState) (link_id : String) : ℤ :=
  ((db.payment_links.find? (fun p => p.1 == link_id)).map (fun p => p.2.earnings_amount)).getD 0

/-- The total_amount_paid aggregate of a payment link (0 when absent). -/
def linkTotalPaid (db : DBState) (link_id : String) : ℤ :=
  ((db.payment_links.find? (fun p => p.1 == link_id)).map (fun p => p.2.total_amount_paid)).getD 0

/-- The account.updated webhook object: the id plus the two lifecycle flags, read
as bool(obj.get(...)). -/
structure AccountUpdatedObject where
  id : Option String
  details_submitted : Bool
  charges_enabled : Bool
deriving DecidableEq

/-- Embeds the pending-earnings transfer loop of stripe_webhook.handle_account_updated
(lines 89-125), the operation the design calls sweep_pending_to_connected: for each
currency of get_pending_earnings with positive amount, attempt stripe.Transfer.create
(a failure is caught per currency and the loop continues); afterwards
clear_pending_earnings for exactly the transferred currencies (no call when none).
Returns the attempted (currency, amount) transfers and the transferred currencies
alongside the new state. -/
def sweep_pending_to_connected (env : Env) (user_id stripe_account_id : String) (db : DBState) :
    (List (String × ℤ) × List String) × DBState :=
  let pending := get_pending_earnings db.stripe_accounts user_id
  let attempted := pending.filter (fun p => decide (0 < p.2))
  let transferred_currencies :=
    (attempted.filter (fun p => env.transfer_ok p.1 p.2 stripe_account_id)).map (fun p => p.1)
  let accounts1 :=
    if transferred_currencies ≠ [] then
      clear_pending_earnings db.stripe_accounts user_id (some transferred_currencies)
    else db.stripe_accounts
  ((attempted, transferred_currencies), { db with stripe_accounts := accounts1 })

/-- Embeds stripe_webhook.handle_account_updated: look up the local account by the
Stripe account id; target status is VERIFIED when details_submitted and
charges_enabled, RESTRICTED when the current status is NEW, otherwise no transition;
a target equal to the current status is a no-op (no write, no sweep); on a write to
VERIFIED, run the pending-earnings sweep. -/
def handle_account_updated (env : Env) (data : Option AccountUpdatedObject) (db : DBState) :
    Bool × DBState :=
  match data with
  | none => (false, db)
  | some obj =>
    match obj.id with
    | none => (false, db)
    | some stripe_account_id =>
      if ¬ strStartsWith stripe_account_id "acct_" = true then (false, db)
      else
        match get_by_stripe_account_id db.stripe_accounts stripe_account_id with
        | none => (false, db)
        | some record =>
          let new_status : Option String :=
            if obj.details_submitted = true ∧ obj.charges_enabled = true then some "VERIFIED"
            else if record.status = "NEW" then some "RESTRICTED"
            else none
          match new_status with
          | none => (true, db)
          | some ns =>
            if ns = record.status then (true, db)
            else
              let db1 := { db with stripe_accounts := update_status db.stripe_accounts record.user_id ns }
              if ns = "VERIFIED" then
                (true, (sweep_pending_to_connected env record.user_id stripe_account_id db1).2)
              else (true, db1)

/-- The stripe-account record carried by a request principal (core/auth.py). -/
structure StripeAccountRecord where
  user_id : String
  stripe_account_id : String
  country : String
  created_at : String
  status : String
deriving DecidableEq

/-- The resolved request identity (core/auth.py Principal). -/
structure Principal where
  user_id : String
  external_sub : String
  stripe_account : Option StripeAccountRecord
deriving DecidableEq

/-- Embeds the Principal.stripe_account_id property: None when no account or the id
is blank after strip; otherwise the (unstripped) id. -/
def Principal.stripe_account_id (p : Principal) : Option String :=
  match p.stripe_account with
  | none => none
  | some a => if strTrim a.stripe_account_id = "" then none else some a.stripe_account_id

/-- The two payment-link service strategies of services/payment_links. -/
inductive LinkServiceKind where
  | platform
  | connected
deriving DecidableEq

/-- Embeds StripePaymentLinkFactory.get_link_service. The class docstring and the
factory's unit tests say VERIFIED → connected-account service, but that branch is
commented out in the source ("todo: use platform account untill connected account
webhook is implemented"), so every principal receives the platform service. -/
def get_link_service (principal : Principal) : LinkServiceKind :=
  LinkServiceKind.platform

/-- The per-currency result of create_payouts_from_available_balance, the shape the
payouts route reads (result.get("transferred"/"failed"/"payout_ids")). The function
itself is not part of src (only its caller and tests are). -/
structure PayoutResult where
  transferred : List (String × ℤ)
  failed : List (String × String)
  payout_ids : List (String × String)
deriving DecidableEq

/-- HTTP-level outcome of the payouts route. -/
inductive PayoutsOutcome where
  | httpError (code : ℕ)
  | ok (status : String)
deriving DecidableEq

/-- Embeds the body of transfers.create_payouts (api/v1/routes/transfers.py lines
83-127): 400 without a connected "acct_..." id; 502 when nothing transferred and
something failed; "no_balance" when nothing at all; otherwise "success" AND
clear_pending_earnings with NO currency list, which resets the user's whole
pending_earnings map — including currencies whose payout failed. The Stripe payout
call itself is supplied as an input (it is not part of src). -/
def create_payouts (principal : Principal) (result : PayoutResult) (db : DBState) :
    PayoutsOutcome × DBState :=
  match principal.stripe_account_id with
  | none => (.httpError 400, db)
  | some stripe_account_id =>
    if ¬ strStartsWith stripe_account_id "acct_" = true then (.httpError 400, db)
    else if result.transferred = [] ∧ result.failed ≠ [] then (.httpError 502, db)
    else if result.transferred = [] ∧ result.failed = [] then (.ok "no_balance", db)
    else
      (.ok "success",
        { db with stripe_accounts := clear_pending_earnings db.stripe_accounts principal.user_id none })

/-- A fixed run environment for the concrete scenarios: clock at 2024-01-01, no
customer details recoverable from Stripe, transfers always succeed. -/
def env0 : Env := {
  now_date := "2024-01-01",
  now_iso := "2024-01-01T00:00:00+00:00",
  fetch_payment_intent_customer_details := fun _ _ => ⟨none, none, none, none⟩,
  transfer_ok := fun _ _ _ => true }

/-- A payment_intent.succeeded object: 1000 gbp received on 2023-11-14 for link l1
of seller u1, base_amount metadata 500, external id pi_b. -/
def replayEvt : StripeEventObject := {
  id := some "pi_b",
  payment_intent := none,
  amount_received := some 1000,
  amount := some 1000,
  currency := some "gbp",
  created := some 1700000000,
  metadata := ⟨some "u1", some "l1", some 500⟩,
  charges_data := [],
  billing_details := none,
  receipt_email := none }

/-- A payment_intent.succeeded object whose metadata has user_id and link_id but no
base_amount key. -/
def noBaseEvt : StripeEventObject := {
  id := some "pi_nb",
  payment_intent := none,
  amount_received := some 1000,
  amount := some 1000,
  currency := some "gbp",
  created := some 1700000000,
  metadata := ⟨some "u1", some "l1", none⟩,
  charges_data := [],
  billing_details := none,
  receipt_email := none }

/-- The empty storage state. -/
def emptyDb : DBState := ⟨[], [], []⟩

/-- State after the first handle_payment_succeeded call on replayEvt against a fresh
store: the Transaction row alone is written before the float earnings make the
aggregate update raise. -/
def replayFresh1 : DBState :=
  (handle_payment_succeeded env0 "payment_intent.succeeded" (some replayEvt) none emptyDb).2

/-- A principal whose stripe account is VERIFIED with a connected account id. -/
def verifiedPrincipal : Principal :=
  ⟨"u1", "sub-1", some ⟨"u1", "acct_123", "GB", "2025-01-01T00:00:00Z", "VERIFIED"⟩⟩

/-- The payment event for the settlement-routing scenario: seller u4, link l4,
base_amount 500, 700 gbp received, id pi_c4. -/
def routeEvt : StripeEventObject := {
  id := some "pi_c4",
  payment_intent := none,
  amount_received := some 700,
  amount := some 700,
  currency := some "gbp",
  created := some 1700000000,
  metadata := ⟨some "u4", some "l4", some 500⟩,
  charges_data := [],
  billing_details := none,
  receipt_email := none }

/-- Initial state for the settlement-routing scenario: seller u4 with a NEW account
and existing balances earnings = {gbp: 40}, pending_earnings = {gbp: 10}. -/
def routeDb : DBState :=
  ⟨[], [], [⟨"u4", "", "NEW", [("gbp", 40)], [("gbp", 10)]⟩]⟩

/-- The account.updated object of the verification witness: onboarding complete. -/
def verifyObj : AccountUpdatedObject := ⟨some "acct_9", true, true⟩

/-- State for the verification witness: seller u7, RESTRICTED, pending {gbp: 300}. -/
def verifyDb : DBState :=
  ⟨[], [], [⟨"u7", "acct_9", "RESTRICTED", [], [("gbp", 300)]⟩]⟩

/-- A details_submitted=false account.updated event for the forward-only witness. -/
def downgradeObj : AccountUpdatedObject := ⟨some "acct_9", false, true⟩

/-- State with seller u7 already VERIFIED. -/
def verifiedDb : DBState :=
  ⟨[], [], [⟨"u7", "acct_9", "VERIFIED", [], [("gbp", 300)]⟩]⟩

/-- A payout result with a succeeded gbp payout and a failed usd payout. -/
def mixedPayoutResult : PayoutResult :=
  ⟨[("gbp", 1000)], [("usd", "payout failed")], [("gbp", "po_1")]⟩

/-- A VERIFIED principal (seller u8) for the payouts scenario. -/
def payoutPrincipal : Principal :=
  ⟨"u8", "sub-8", some ⟨"u8", "acct_8", "GB", "2025-01-01T00:00:00Z", "VERIFIED"⟩⟩

/-- State for the payouts scenario: u8 holds pending gbp 1000 and usd 500. -/
def payoutDb : DBState :=
  ⟨[], [], [⟨"u8", "acct_8", "VERIFIED", [], [("gbp", 1000), ("usd", 500)]⟩]⟩

/-- An environment whose usd transfers fail and whose gbp transfers succeed. -/
def envUsdFails : Env := {
  now_date := "2024-01-01",
  now_iso := "2024-01-01T00:00:00+00:00",
  fetch_payment_intent_customer_details := fun _ _ => ⟨none, none, none, none⟩,
  transfer_ok := fun c _ _ => c ≠ "usd" }

/-- A transaction of seller u9 matching pi_x but sorting after an earlier row. -/
def lateMatchingRow : Transaction := {
  user_id := "u9",
  date_transaction_id := "2024-05-05#pi_x",
  payment_intent_id := "pi_x",
  link_id := "l9",
  amount := 300,
  currency := "usd",
  status := "succeeded",
  created_at := "2024-05-05T00:00:00+00:00",
  refunded := false,
  customer_email := "",
  customer_name := "",
  customer_phone := "",
  customer_address := "",
  stripe_account_id := none }

/-- An earlier-sorting row of seller u9 with a different payment id. -/
def earlierRow : Transaction := {
  user_id := "u9",
  date_transaction_id := "2024-01-01#pi_w",
  payment_intent_id := "pi_w",
  link_id := "l9",
  amount := 100,
  currency := "usd",
  status := "succeeded",
  created_at := "2024-01-01T00:00:00+00:00",
  refunded := false,
  customer_email := "",
  customer_name := "",
  customer_phone := "",
  customer_address := "",
  stripe_account_id := none }

/-- Ceiling through floor of the negation, for numeric evaluation. -/
lemma intCeil_eq_neg_floor_neg (q : ℚ) : (⌈q⌉ : ℤ) = -⌊-q⌋ := by
  rw [Int.floor_neg, neg_neg]

/-- The currency normalization used by tier_fixed_fee, evaluated at "usd". -/
lemma normCurrency_usd : strLower (if ("usd" : String) = "" then "usd" else "usd") = "usd" := by
  decide

/-- The currency normalization used by tier_fixed_fee, evaluated at "gbp". -/
lemma normCurrency_gbp : strLower (if ("gbp" : String) = "" then "usd" else "gbp") = "gbp" := by
  decide

/-- Rate lookup at "usd". -/
lemma usdToCurrencyRate_usd : usdToCurrencyRate "usd" = 1 := by
  unfold usdToCurrencyRate
  rw [if_pos (by decide)]

/-- Rate lookup at "gbp". -/
lemma usdToCurrencyRate_gbp : usdToCurrencyRate "gbp" = 4/5 := by
  unfold usdToCurrencyRate
  rw [if_neg (by decide), if_neg (by decide), if_pos (by decide)]

/-- find? over an append skips an unmatched first part. -/
lemma find?_append_of_none {α : Type} (l1 l2 : List α) (p : α → Bool) (h : l1.find? p = none) :
    (l1 ++ l2).find? p = l2.find? p := by
  induction l1 with
  | nil => simp
  | cons a rest ih =>
    simp only [List.find?_cons] at h
    cases hp : p a with
    | true => rw [hp] at h; simp at h
    | false =>
      rw [hp] at h
      simp only [List.cons_append, List.find?_cons, hp]
      exact ih h

/-- After an assocSet-style map, find? on the key yields the written pair. -/
lemma find?_map_set (m : List (String × ℤ)) (k : String) (v : ℤ)
    (h : (m.find? (fun p => p.1 == k)).isSome = true) :
    ((m.map (fun p => if p.1 == k then (k, v) else p)).find? (fun p => p.1 == k)) = some (k, v) := by
  induction m with
  | nil => simp at h
  | cons p rest ih =>
    simp only [List.find?_cons] at h
    cases hp : (p.1 == k) with
    | true =>
      simp only [List.map_cons, List.find?_cons, if_pos hp]
      have : ((k, v).1 == k) = true := by simp
      rw [this]
    | false =>
      rw [hp] at h
      simp only [List.map_cons, List.find?_cons, if_neg (by simp [hp] : ¬ (p.1 == k) = true)]
      rw [hp]
      exact ih h

/-- Reading back the key just written to an association list. -/
lemma assocGet_assocSet_self (m : List (String × ℤ)) (k : String) (v : ℤ) :
    assocGet (assocSet m k v) k = some v := by
  unfold assocSet
  by_cases h : (m.find? (fun p => p.1 == k)).isSome = true
  · rw [if_pos h]
    unfold assocGet
    rw [find?_map_set m k v h]
    rfl
  · rw [if_neg h]
    unfold assocGet
    rw [find?_append_of_none]
    · simp [List.find?_cons]
    · rcases hf : m.find? (fun p => p.1 == k) with _ | p
      · exact hf
      · rw [hf] at h; simp at h

/-- After updateAccount, the first row for the user is f of the previous row (or of the fresh item when absent). -/
lemma updateAccount_find_self (accounts : List StripeAccountItem) (u : String)
    (f : StripeAccountItem → StripeAccountItem) (hfu : ∀ a, (f a).user_id = a.user_id) :
    (updateAccount accounts u f).find? (fun a => a.user_id == u) =
      some (f (rowOrDefault accounts u)) := by
  induction accounts with
  | nil =>
    simp [updateAccount, rowOrDefault, List.find?_cons, hfu]
  | cons a rest ih =>
    unfold updateAccount
    by_cases hau : (a.user_id == u) = true
    · rw [if_pos hau, List.find?_cons]
      have h1 : ((f a).user_id == u) = true := by rw [hfu a]; exact hau
      rw [h1]
      simp [rowOrDefault, List.find?_cons, hau]
    · rw [if_neg hau, List.find?_cons]
      have h2 : ((a.user_id == u)) = false := by simpa using hau
      rw [h2, ih]
      simp only [rowOrDefault, List.find?_cons, h2]

/-- updateAccount leaves lookups for other users unchanged. -/
lemma updateAccount_find_other (accounts : List StripeAccountItem) (u u' : String)
    (f : StripeAccountItem → StripeAccountItem) (hfu : ∀ a, (f a).user_id = a.user_id)
    (hne : u' ≠ u) :
    (updateAccount accounts u f).find? (fun a => a.user_id == u') =
      accounts.find? (fun a => a.user_id == u') := by
  induction accounts with
  | nil =>
    have h0 : (((⟨u, "", "", [], []⟩ : StripeAccountItem)).user_id == u') = false := by
      simp [Ne.symm hne]
    simp [updateAccount, List.find?_cons, hfu, h0, Ne.symm hne]
  | cons a rest ih =>
    unfold updateAccount
    by_cases hau : (a.user_id == u) = true
    · rw [if_pos hau]
      have hau' : a.user_id = u := by simpa using hau
      have h1 : ((f a).user_id == u') = false := by simp [hfu a, hau', Ne.symm hne]
      have h2 : (a.user_id == u') = false := by simp [hau', Ne.symm hne]
      rw [List.find?_cons, List.find?_cons, h1, h2]
    · rw [if_neg hau, List.find?_cons, List.find?_cons]
      cases h : (a.user_id == u') with
      | true => rfl
      | false => exact ih

/-- earningsMapAt through rowOrDefault ([] in both absent readings). -/
lemma earningsMapAt_rowOrDefault (accounts : List StripeAccountItem) (u : String) :
    earningsMapAt accounts u = (rowOrDefault accounts u).earnings := by
  unfold earningsMapAt rowOrDefault
  cases h : accounts.find? (fun a => a.user_id == u) <;> simp [h]

/-- pendingMapAt through rowOrDefault. -/
lemma pendingMapAt_rowOrDefault (accounts : List StripeAccountItem) (u : String) :
    pendingMapAt accounts u = (rowOrDefault accounts u).pending_earnings := by
  unfold pendingMapAt rowOrDefault
  cases h : accounts.find? (fun a => a.user_id == u) <;> simp [h]

/-- update_status writes the status read back for that user. -/
lemma statusAt_update_status_self (accounts : List StripeAccountItem) (u s : String) :
    statusAt (update_status accounts u s) u = some s := by
  simp only [update_status, statusAt]
  rw [updateAccount_find_self _ _ _ ?hfu]
  case hfu => intro a; rfl
  rfl

/-- clear_pending_earnings does not change the status of the user row it touches. -/
lemma statusAt_clear_pending_self (accounts : List StripeAccountItem) (u : String)
    (oc : Option (List String)) :
    statusAt (clear_pending_earnings accounts u oc) u = some ((rowOrDefault accounts u).status) := by
  rcases oc with _ | cs
  · simp only [clear_pending_earnings, statusAt]
    rw [updateAccount_find_self _ _ _ ?hfu]
    case hfu => intro a; rfl
    rfl
  · simp only [clear_pending_earnings]
    by_cases hcs : cs = []
    · rw [if_pos hcs]
      simp only [statusAt]
      rw [updateAccount_find_self _ _ _ ?hfu]
      case hfu => intro a; rfl
      rfl
    · rw [if_neg hcs]
      simp only [statusAt]
      rw [updateAccount_find_self _ _ _ ?hfu]
      case hfu => intro a; rfl
      rfl

/-- The row after update_status carries the new status. -/
lemma rowOrDefault_update_status (accounts : List StripeAccountItem) (u s : String) :
    (rowOrDefault (update_status accounts u s) u).status = s := by
  simp only [update_status, rowOrDefault]
  rw [updateAccount_find_self _ _ _ ?hfu]
  case hfu => intro a; rfl
  rfl

/-- update_status leaves every pending_earnings map unchanged. -/
lemma pendingMapAt_update_status (accounts : List StripeAccountItem) (u s : String) (u' : String) :
    pendingMapAt (update_status accounts u s) u' = pendingMapAt accounts u' := by
  by_cases h : u' = u
  · subst h
    rw [pendingMapAt_rowOrDefault accounts u']
    simp only [update_status, pendingMapAt]
    rw [updateAccount_find_self _ _ _ ?hfu]
    case hfu => intro a; rfl
    rfl
  · simp only [update_status, pendingMapAt]
    rw [updateAccount_find_other _ _ _ _ ?hfu h]
    case hfu => intro a; rfl

/-- clear_pending_earnings with a non-empty currency list removes exactly those lowercased keys. -/
lemma pendingMapAt_clear_some (accounts : List StripeAccountItem) (u : String)
    (cs : List String) (hcs : cs ≠ []) :
    pendingMapAt (clear_pending_earnings accounts u (some cs)) u =
      assocRemove (pendingMapAt accounts u) (cs.map strLower) := by
  simp only [clear_pending_earnings, if_neg hcs]
  rw [pendingMapAt_rowOrDefault accounts u]
  simp only [pendingMapAt]
  rw [updateAccount_find_self _ _ _ ?hfu]
  case hfu => intro a; rfl
  rfl

/-- clear_pending_earnings with no currency list resets the whole map. -/
lemma pendingMapAt_clear_none (accounts : List StripeAccountItem) (u : String) :
    pendingMapAt (clear_pending_earnings accounts u none) u = [] := by
  simp only [clear_pending_earnings, pendingMapAt]
  rw [updateAccount_find_self _ _ _ ?hfu]
  case hfu => intro a; rfl
  rfl

/-- A removed key reads back as absent. -/
lemma assocGet_assocRemove_mem (m : List (String × ℤ)) (ks : List String) (k : String)
    (h : ks.contains k = true) :
    assocGet (assocRemove m ks) k = none := by
  induction m with
  | nil => rfl
  | cons p rest ih =>
    simp only [assocRemove, List.filter_cons] at ih ⊢
    by_cases hp : (! ks.contains p.1) = true
    · rw [if_pos hp]
      have hpk : (p.1 == k) = false := by
        rcases hq : (p.1 == k) with _ | _
        · rfl
        · have : p.1 = k := by simpa using hq
          rw [this] at hp
          rw [h] at hp
          simp at hp
      simp only [assocGet, List.find?_cons, hpk] at ih ⊢
      exact ih
    · rw [if_neg hp]
      exact ih

/-- Keys not removed read back unchanged. -/
lemma assocGet_assocRemove_not_mem (m : List (String × ℤ)) (ks : List String) (k : String)
    (h : ks.contains k = false) :
    assocGet (assocRemove m ks) k = assocGet m k := by
  induction m with
  | nil => rfl
  | cons p rest ih =>
    simp only [assocRemove, List.filter_cons] at ih ⊢
    by_cases hpk : (p.1 == k) = true
    · have : p.1 = k := by simpa using hpk
      have hkeep : (! ks.contains p.1) = true := by rw [this, h]; rfl
      rw [if_pos hkeep]
      simp only [assocGet, List.find?_cons, hpk]
    · have hpk' : (p.1 == k) = false := by simpa using hpk
      by_cases hkeep : (! ks.contains p.1) = true
      · rw [if_pos hkeep]
        simp only [assocGet, List.find?_cons, hpk'] at ih ⊢
        exact ih
      · rw [if_neg hkeep]
        simp only [assocGet, List.find?_cons, hpk'] at ih ⊢
        exact ih

/-- In a map with distinct keys, a member pair is what its key reads back. -/
lemma assocGet_of_mem_nodup (m : List (String × ℤ)) (p : String × ℤ)
    (hmem : p ∈ m) (hnd : (m.map Prod.fst).Nodup) :
    assocGet m p.1 = some p.2 := by
  induction m with
  | nil => simp at hmem
  | cons q rest ih =>
    rcases List.mem_cons.mp hmem with rfl | hrest
    · simp [assocGet, List.find?_cons]
    · simp only [List.map_cons, List.nodup_cons] at hnd
      have hq : (q.1 == p.1) = false := by
        rcases hqq : (q.1 == p.1) with _ | _
        · rfl
        · have heq : q.1 = p.1 := by simpa using hqq
          exfalso
          exact hnd.1 (heq ▸ (List.mem_map.mpr ⟨p, hrest, rfl⟩))
      simp only [assocGet, List.find?_cons, hq]
      exact ih hrest hnd.2

/-- C1: the claimed idempotent replay fails on the code, in the opposite direction:
on a fresh store, the FIRST invocation on the event already returns false - the
handler passes the float earnings value (float(base_amount)) to the DynamoDB
aggregate update add_payment_result, boto3's serializer raises TypeError inside
the try block, and the except returns False - leaving only the Transaction row
written; the identical second invocation finds that row and returns true without
writing. Across both calls the link's earnings_amount and the seller's earnings
and pending_earnings are incremented zero times, not exactly once, and the two
calls return (false, true), not (true, true). -/
theorem replay_credits_earnings_zero_times :
    (handle_payment_succeeded env0 "payment_intent.succeeded" (some replayEvt) none emptyDb).1 =
      HandlerResult.ret false ∧
    replayFresh1.transactions ≠ [] ∧
    handle_payment_succeeded env0 "payment_intent.succeeded" (some replayEvt) none replayFresh1 =
      (HandlerResult.ret true, replayFresh1) ∧
    linkEarnings replayFresh1 "l1" = 0 ∧
    accountEarnings replayFresh1 "u1" "gbp" = 0 ∧
    accountPendingEarnings replayFresh1 "u1" "gbp" = 0 := by
  decide

/-- C2: the factory returns the platform link service even for a seller whose
account status is VERIFIED, where the claim (and the factory's docstring and unit
tests) require the connected-account service. -/
theorem verified_seller_gets_platform_service :
    (verifiedPrincipal.stripe_account.map StripeAccountRecord.status) = some "VERIFIED" ∧
    get_link_service verifiedPrincipal = LinkServiceKind.platform ∧
    LinkServiceKind.platform ≠ LinkServiceKind.connected := by
  decide

/-- C3: an event carrying user_id and link_id but no base_amount metadata makes
handle_payment_succeeded raise (float(None) TypeError, evaluated before the try
block), instead of the claimed clean `false` skip; no storage is mutated. -/
theorem missing_base_amount_raises :
    handle_payment_succeeded env0 "payment_intent.succeeded" (some noBaseEvt) none emptyDb =
      (HandlerResult.raises, emptyDb) := by
  decide

/-- C4: the claimed settlement-location routing of earnings increments never
executes. On a successful platform-held payment event (base_amount 500, 700 gbp,
seller u4) the claim requires earnings["gbp"] += 500 and pending_earnings["gbp"]
+= 500; with a connected-account id attached it requires earnings["gbp"] += 500
alone. In the code, add_payment_result is called with the float earnings value,
boto3's serializer raises TypeError inside the try block, and the handler returns
false: in both settlement locations neither earnings nor pending_earnings moves,
no link aggregate is created, and only the Transaction row is written. -/
theorem settlement_routing_never_credits :
    (handle_payment_succeeded env0 "payment_intent.succeeded" (some routeEvt) none routeDb).1 =
      HandlerResult.ret false ∧
    accountEarnings
        (handle_payment_succeeded env0 "payment_intent.succeeded" (some routeEvt) none routeDb).2
        "u4" "gbp" = accountEarnings routeDb "u4" "gbp" ∧
    accountPendingEarnings
        (handle_payment_succeeded env0 "payment_intent.succeeded" (some routeEvt) none routeDb).2
        "u4" "gbp" = accountPendingEarnings routeDb "u4" "gbp" ∧
    linkEarnings
        (handle_payment_succeeded env0 "payment_intent.succeeded" (some routeEvt) none routeDb).2
        "l4" = 0 ∧
    (handle_payment_succeeded env0 "payment_intent.succeeded" (some routeEvt) (some "acct_7")
        routeDb).1 = HandlerResult.ret false ∧
    accountEarnings
        (handle_payment_succeeded env0 "payment_intent.succeeded" (some routeEvt) (some "acct_7")
          routeDb).2 "u4" "gbp" = accountEarnings routeDb "u4" "gbp" ∧
    (handle_payment_succeeded env0 "payment_intent.succeeded" (some routeEvt) none
        routeDb).2.transactions ≠ routeDb.transactions := by
  decide

/-- C5: worked one-time example: base_amount 100 cents in usd quotes the tier fee 40
(fixed, ≤ 1000 cents tier), total (100+40)/(1-0) = 140, and the earnings value the
settlement path computes (_earnings_from_base_amount) is the quoted base amount 100
exactly — a float of numeric value 100, with no deduction. -/
theorem one_time_quote_worked_example :
    amount_with_fee 100 "usd" none none none = some ⟨140, 200/7, 0, 40⟩ ∧
    tier_fixed_fee 100 "usd" = 40 ∧
    earnings_from_base_amount (some 100) = some (DynNum.float 100) ∧
    DynNum.val (DynNum.float 100) = 100 := by
  refine ⟨?_, ?_, rfl, rfl⟩
  · simp only [amount_with_fee, tier_fixed_fee, normCurrency_usd, usdToCurrencyRate_usd]
    norm_num [multiplier, settings, tierFeeCents, usdTierFee, tierIndex, round_up_fee_major,
      pyRound, Int.fract, intCeil_eq_neg_floor_neg]
  · simp only [tier_fixed_fee, normCurrency_usd, usdToCurrencyRate_usd]
    norm_num [tierFeeCents, usdTierFee, tierIndex, round_up_fee_major, pyRound, Int.fract,
      intCeil_eq_neg_floor_neg]

/-- C7: the account.updated state machine. For an event whose Stripe account id
resolves to a local record: the handler returns true; with both flags set the
target is VERIFIED — already-VERIFIED is a no-op (no write, no sweep), otherwise
the status is written to VERIFIED and the pending-earnings sweep runs; with the
flags not both set, a NEW account is written to RESTRICTED (no sweep) and any
other status is left untouched; in particular an account already VERIFIED is never
moved (forward-only). -/
theorem account_status_state_machine (env : Env) (obj : AccountUpdatedObject) (db : DBState)
    (sid : String) (record : StripeAccountItem)
    (hid : obj.id = some sid)
    (hacct : strStartsWith sid "acct_" = true)
    (hrec : get_by_stripe_account_id db.stripe_accounts sid = some record) :
    (handle_account_updated env (some obj) db).1 = true ∧
    (obj.details_submitted = true ∧ obj.charges_enabled = true →
      (record.status = "VERIFIED" → (handle_account_updated env (some obj) db).2 = db) ∧
      (record.status ≠ "VERIFIED" →
        (handle_account_updated env (some obj) db).2 =
          (sweep_pending_to_connected env record.user_id sid
            { db with stripe_accounts := update_status db.stripe_accounts record.user_id "VERIFIED" }).2 ∧
        accountStatus (handle_account_updated env (some obj) db).2 record.user_id =
          some "VERIFIED")) ∧
    (¬ (obj.details_submitted = true ∧ obj.charges_enabled = true) →
      (record.status = "NEW" →
        (handle_account_updated env (some obj) db).2 =
          { db with stripe_accounts := update_status db.stripe_accounts record.user_id "RESTRICTED" }) ∧
      (record.status ≠ "NEW" → (handle_account_updated env (some obj) db).2 = db)) ∧
    (record.status = "VERIFIED" → (handle_account_updated env (some obj) db).2 = db) := by
  simp only [handle_account_updated, hid, hacct, not_true, if_false, hrec]
  by_cases hflags : obj.details_submitted = true ∧ obj.charges_enabled = true
  · simp only [if_pos hflags]
    by_cases hv : ("VERIFIED" : String) = record.status
    · rw [if_pos hv]
      refine ⟨by trivial, fun _ => ⟨fun _ => by trivial, fun hne => absurd hv.symm hne⟩,
        fun hn => absurd hflags hn, fun _ => by trivial⟩
    · simp only [if_neg hv, if_true]
      refine ⟨by trivial, fun _ => ⟨fun heq => absurd heq.symm hv, fun _ => ⟨by trivial, ?_⟩⟩,
        fun hn => absurd hflags hn, fun heq => absurd heq.symm hv⟩
      simp only [accountStatus, sweep_pending_to_connected]
      by_cases htr :
          (((get_pending_earnings (update_status db.stripe_accounts record.user_id "VERIFIED")
              record.user_id).filter (fun p => decide (0 < p.2))).filter
            (fun p => env.transfer_ok p.1 p.2 sid)).map (fun p => p.1) ≠ []
      · rw [if_pos htr]
        rw [statusAt_clear_pending_self, rowOrDefault_update_status]
      · rw [if_neg htr]
        exact statusAt_update_status_self db.stripe_accounts record.user_id "VERIFIED"
  · simp only [if_neg hflags]
    by_cases hnewst : record.status = "NEW"
    · simp only [if_pos hnewst]
      have h1 : ¬ (("RESTRICTED" : String) = record.status) := by
        rw [hnewst]; decide
      rw [if_neg h1]
      have h2 : ¬ (("RESTRICTED" : String) = "VERIFIED") := by decide
      rw [if_neg h2]
      refine ⟨by trivial, fun hf => absurd hf hflags,
        fun _ => ⟨fun _ => by trivial, fun hne => absurd hnewst hne⟩, fun hveq => ?_⟩
      rw [hveq] at hnewst
      exact absurd hnewst (by decide)
    · simp only [if_neg hnewst]
      exact ⟨by trivial, fun hf => absurd hf hflags,
        fun _ => ⟨fun heq => absurd heq hnewst, fun _ => by trivial⟩, fun _ => by trivial⟩

/-- Witness for C7: onboarding completes for a RESTRICTED seller — the handler
returns true and the status reads back VERIFIED; and a details_submitted=false
event on an already-VERIFIED seller changes nothing (forward-only). -/
theorem account_status_state_machine_witness :
    ((handle_account_updated env0 (some verifyObj) verifyDb).1 = true ∧
      accountStatus (handle_account_updated env0 (some verifyObj) verifyDb).2 "u7" =
        some "VERIFIED") ∧
    (handle_account_updated env0 (some downgradeObj) verifiedDb).2 = verifiedDb := by
  have h := account_status_state_machine env0 verifyObj verifyDb "acct_9"
    ⟨"u7", "acct_9", "RESTRICTED", [], [("gbp", 300)]⟩ (by decide) (by decide) (by decide)
  have h2 := account_status_state_machine env0 downgradeObj verifiedDb "acct_9"
    ⟨"u7", "acct_9", "VERIFIED", [], [("gbp", 300)]⟩ (by decide) (by decide) (by decide)
  exact ⟨⟨h.1, ((h.2.1 (by decide)).2 (by decide)).2⟩, h2.2.2.2 (by decide)⟩

/-- C10: the idempotency lookup inspects at most one stored row. The embedded
get_by_payment_intent_id models the DynamoDB Query with Limit=1 applied to the
partition's rows in sort-key order before the payment_intent_id filter; hence
whenever the user's first row in sort-key order does not carry the requested
payment id, the lookup returns none even though a matching Transaction (t) exists
further down the partition — the duplicate check only detects a replay whose row
sorts first. -/
theorem limited_lookup_misses_later_rows (txns : List Transaction) (u pi : String)
    (t tfirst : Transaction)
    (hmem : t ∈ txns) (huser : t.user_id = u) (hpi : t.payment_intent_id = pi)
    (hfirst : (sortByDate (txns.filter (fun x => x.user_id == u))).head? = some tfirst)
    (hne : tfirst.payment_intent_id ≠ pi) :
    get_by_payment_intent_id txns u pi = none := by
  rcases hs : sortByDate (txns.filter (fun x => x.user_id == u)) with _ | ⟨a, rest⟩
  · rw [hs] at hfirst
    simp at hfirst
  · rw [hs] at hfirst
    have ha : a = tfirst := by simpa using hfirst
    subst ha
    have hb : (a.payment_intent_id == pi) = false := by
      simpa using hne
    simp only [get_by_payment_intent_id, hs, List.take_succ_cons, List.take_zero,
      List.filter_cons, hb, List.filter_nil, List.head?_nil, Bool.false_eq_true, if_false]

/-- Witness for C10: seller u9 has an earlier-sorting row pi_w dated 2024-01-01 and
a matching row pi_x dated 2024-05-05; the lookup for pi_x returns none. -/
theorem limited_lookup_misses_later_rows_witness :
    get_by_payment_intent_id [lateMatchingRow, earlierRow] "u9" "pi_x" = none :=
  limited_lookup_misses_later_rows [lateMatchingRow, earlierRow] "u9" "pi_x"
    lateMatchingRow earlierRow (by decide) (by decide) (by decide) (by decide) (by decide)

/-- Counterexample to C8 as stated: in the payouts route, with pending
{gbp: 1000, usd: 500}, a payout result that succeeded for gbp and failed for usd
still clears the seller's whole pending_earnings map — the usd key is removed even
though its own transfer failed and it held a positive balance. -/
theorem payouts_route_clears_failed_currencies :
    (create_payouts payoutPrincipal mixedPayoutResult payoutDb).1 = PayoutsOutcome.ok "success" ∧
    accountPendingEarnings payoutDb "u8" "usd" = 500 ∧
    (mixedPayoutResult.transferred.find? (fun p => p.1 == "usd")) = none ∧
    pendingMap (create_payouts payoutPrincipal mixedPayoutResult payoutDb).2 "u8" = [] := by
  decide

/-- C8 amended: the pending-earnings sweep of handle_account_updated (the
operation the design calls sweep_pending_to_connected) has the claimed semantics —
each currency with a positive pending balance gets exactly one transfer attempt,
non-positive balances are never transferred, a currency's key is removed iff its
own transfer succeeded, and one currency's failure does not abort the others
(captured by the per-currency formula); the payouts route, however, clears every
pending_earnings key of the user whenever at least one currency's payout
succeeded, including keys whose payout failed. -/
theorem sweep_semantics (env : Env) (u dest : String) (db : DBState)
    (item : StripeAccountItem)
    (hitem : db.stripe_accounts.find? (fun a => a.user_id == u) = some item)
    (hlower : ∀ p ∈ item.pending_earnings, strLower p.1 = p.1)
    (hnd : (item.pending_earnings.map Prod.fst).Nodup) :
    ((sweep_pending_to_connected env u dest db).1.1 =
      item.pending_earnings.filter (fun p => decide (0 < p.2))) ∧
    (∀ p ∈ (sweep_pending_to_connected env u dest db).1.1, 0 < p.2) ∧
    (∀ p ∈ item.pending_earnings, 0 < p.2 →
      assocGet (pendingMap (sweep_pending_to_connected env u dest db).2 u) p.1 =
        (if env.transfer_ok p.1 p.2 dest = true then none else some p.2)) ∧
    (∀ p ∈ item.pending_earnings, ¬ 0 < p.2 →
      assocGet (pendingMap (sweep_pending_to_connected env u dest db).2 u) p.1 = some p.2) ∧
    (∀ (principal : Principal) (result : PayoutResult) (db2 : DBState) (sid : String),
      principal.stripe_account_id = some sid → strStartsWith sid "acct_" = true →
      result.transferred ≠ [] →
      pendingMap (create_payouts principal result db2).2 principal.user_id = []) := by
  have hpend : get_pending_earnings db.stripe_accounts u =
      item.pending_earnings.filter (fun p => decide (0 < p.2)) := by
    unfold get_pending_earnings
    rw [hitem]
  have hdup : (item.pending_earnings.filter (fun p => decide (0 < p.2))).filter
      (fun p => decide (0 < p.2)) = item.pending_earnings.filter (fun p => decide (0 < p.2)) := by
    rw [List.filter_filter]
    simp only [Bool.and_self]
  have hatt : (sweep_pending_to_connected env u dest db).1.1 =
      item.pending_earnings.filter (fun p => decide (0 < p.2)) := by
    simp only [sweep_pending_to_connected, hpend, hdup]
  have hpendAt : pendingMapAt db.stripe_accounts u = item.pending_earnings := by
    unfold pendingMapAt
    rw [hitem]
    rfl
  have hkeyuniq : ∀ p ∈ item.pending_earnings, ∀ q ∈ item.pending_earnings,
      q.1 = p.1 → q = p := fun p hp q hq hqp =>
    List.inj_on_of_nodup_map hnd hq hp hqp
  have hT : ∀ p ∈ item.pending_earnings, 0 < p.2 →
      (env.transfer_ok p.1 p.2 dest = true ↔
        p.1 ∈ (((item.pending_earnings.filter (fun p => decide (0 < p.2))).filter
          (fun p => env.transfer_ok p.1 p.2 dest)).map (fun p => p.1))) := by
    intro p hp hpos
    constructor
    · intro hok
      exact List.mem_map.mpr ⟨p, List.mem_filter.mpr
        ⟨List.mem_filter.mpr ⟨hp, by simpa using hpos⟩, hok⟩, rfl⟩
    · intro hmemT
      obtain ⟨q, hq, hq1⟩ := List.mem_map.mp hmemT
      have hq' := List.mem_filter.mp hq
      have hq'' := List.mem_filter.mp hq'.1
      have : q = p := hkeyuniq p hp q hq''.1 hq1
      rw [← this]
      exact hq'.2
  refine ⟨hatt, ?_, ?_, ?_, ?_⟩
  · intro p hp
    rw [hatt] at hp
    simpa using (List.mem_filter.mp hp).2
  · intro p hp hpos
    simp only [sweep_pending_to_connected, hpend, hdup, pendingMap]
    by_cases hTe :
        (((item.pending_earnings.filter (fun p => decide (0 < p.2))).filter
          (fun p => env.transfer_ok p.1 p.2 dest)).map (fun p => p.1)) ≠ []
    · rw [if_pos hTe]
      have hmaplower :
          ((((item.pending_earnings.filter (fun p => decide (0 < p.2))).filter
            (fun p => env.transfer_ok p.1 p.2 dest)).map (fun p => p.1)).map strLower) =
          (((item.pending_earnings.filter (fun p => decide (0 < p.2))).filter
            (fun p => env.transfer_ok p.1 p.2 dest)).map (fun p => p.1)) := by
        rw [List.map_map]
        refine List.map_congr_left ?_
        intro q hq
        exact hlower q (List.mem_filter.mp (List.mem_filter.mp hq).1).1
      rw [pendingMapAt_clear_some _ _ _ hTe, hmaplower, hpendAt]
      by_cases hok : env.transfer_ok p.1 p.2 dest = true
      · rw [if_pos hok]
        exact assocGet_assocRemove_mem _ _ _
          (List.elem_eq_true_of_mem ((hT p hp hpos).mp hok))
      · rw [if_neg hok]
        have hnotmem : p.1 ∉ (((item.pending_earnings.filter (fun p => decide (0 < p.2))).filter
            (fun p => env.transfer_ok p.1 p.2 dest)).map (fun p => p.1)) := by
          intro hc
          exact hok ((hT p hp hpos).mpr hc)
        have hcont : ((((item.pending_earnings.filter (fun p => decide (0 < p.2))).filter
            (fun p => env.transfer_ok p.1 p.2 dest)).map (fun p => p.1)).contains p.1) = false := by
          rcases hc : ((((item.pending_earnings.filter (fun p => decide (0 < p.2))).filter
              (fun p => env.transfer_ok p.1 p.2 dest)).map (fun p => p.1)).contains p.1) with _ | _
          · exact hc
          · exact absurd (List.mem_of_elem_eq_true hc) hnotmem
        rw [assocGet_assocRemove_not_mem _ _ _ hcont]
        exact assocGet_of_mem_nodup _ _ hp hnd
    · rw [if_neg hTe]
      push_neg at hTe
      have hok : env.transfer_ok p.1 p.2 dest ≠ true := by
        intro hok
        have := (hT p hp hpos).mp hok
        rw [hTe] at this
        simp at this
      rw [if_neg hok, hpendAt]
      exact assocGet_of_mem_nodup _ _ hp hnd
  · intro p hp hnpos
    simp only [sweep_pending_to_connected, hpend, hdup, pendingMap]
    by_cases hTe :
        (((item.pending_earnings.filter (fun p => decide (0 < p.2))).filter
          (fun p => env.transfer_ok p.1 p.2 dest)).map (fun p => p.1)) ≠ []
    · rw [if_pos hTe]
      have hmaplower :
          ((((item.pending_earnings.filter (fun p => decide (0 < p.2))).filter
            (fun p => env.transfer_ok p.1 p.2 dest)).map (fun p => p.1)).map strLower) =
          (((item.pending_earnings.filter (fun p => decide (0 < p.2))).filter
            (fun p => env.transfer_ok p.1 p.2 dest)).map (fun p => p.1)) := by
        rw [List.map_map]
        refine List.map_congr_left ?_
        intro q hq
        exact hlower q (List.mem_filter.mp (List.mem_filter.mp hq).1).1
      rw [pendingMapAt_clear_some _ _ _ hTe, hmaplower, hpendAt]
      have hnotmem : p.1 ∉ (((item.pending_earnings.filter (fun p => decide (0 < p.2))).filter
          (fun p => env.transfer_ok p.1 p.2 dest)).map (fun p => p.1)) := by
        intro hc
        obtain ⟨q, hq, hq1⟩ := List.mem_map.mp hc
        have hq' := List.mem_filter.mp hq
        have hq'' := List.mem_filter.mp hq'.1
        have : q = p := hkeyuniq p hp q hq''.1 hq1
        rw [this] at hq''
        exact hnpos (by simpa using hq''.2)
      have hcont : ((((item.pending_earnings.filter (fun p => decide (0 < p.2))).filter
          (fun p => env.transfer_ok p.1 p.2 dest)).map (fun p => p.1)).contains p.1) = false := by
        rcases hc : ((((item.pending_earnings.filter (fun p => decide (0 < p.2))).filter
            (fun p => env.transfer_ok p.1 p.2 dest)).map (fun p => p.1)).contains p.1) with _ | _
        · exact hc
        · exact absurd (List.mem_of_elem_eq_true hc) hnotmem
      rw [assocGet_assocRemove_not_mem _ _ _ hcont]
      exact assocGet_of_mem_nodup _ _ hp hnd
    · rw [if_neg hTe, hpendAt]
      exact assocGet_of_mem_nodup _ _ hp hnd
  · intro principal result db2 sid h1 h2 h3
    simp only [create_payouts, h1, h2, not_true, if_false]
    rw [if_neg (fun hc => h3 hc.1), if_neg (fun hc => h3 hc.1)]
    simp only [pendingMap]
    exact pendingMapAt_clear_none db2.stripe_accounts principal.user_id

/-- Witness for C8: a RESTRICTED-to-VERIFIED sweep over pending {gbp: 300, usd: 200}
in an environment where usd transfers fail: both currencies are attempted, the gbp
key is removed, the usd key keeps its balance, and the payouts clause applies to the
mixed payout scenario. -/
theorem sweep_semantics_witness :
    ((sweep_pending_to_connected envUsdFails "u7" "acct_9"
        ⟨[], [], [⟨"u7", "acct_9", "VERIFIED", [], [("gbp", 300), ("usd", 200)]⟩]⟩).1.1 =
      [("gbp", 300), ("usd", 200)]) ∧
    (assocGet (pendingMap (sweep_pending_to_connected envUsdFails "u7" "acct_9"
        ⟨[], [], [⟨"u7", "acct_9", "VERIFIED", [], [("gbp", 300), ("usd", 200)]⟩]⟩).2 "u7")
      "gbp" = none) ∧
    (assocGet (pendingMap (sweep_pending_to_connected envUsdFails "u7" "acct_9"
        ⟨[], [], [⟨"u7", "acct_9", "VERIFIED", [], [("gbp", 300), ("usd", 200)]⟩]⟩).2 "u7")
      "usd" = some 200) ∧
    pendingMap (create_payouts payoutPrincipal mixedPayoutResult payoutDb).2 "u8" = [] := by
  have h := sweep_semantics envUsdFails "u7" "acct_9"
    ⟨[], [], [⟨"u7", "acct_9", "VERIFIED", [], [("gbp", 300), ("usd", 200)]⟩]⟩
    ⟨"u7", "acct_9", "VERIFIED", [], [("gbp", 300), ("usd", 200)]⟩
    (by decide) (by decide) (by decide)
  refine ⟨h.1, ?_, ?_, ?_⟩
  · have := h.2.2.1 ("gbp", 300) (by decide) (by decide)
    rw [this]
    decide
  · have := h.2.2.1 ("usd", 200) (by decide) (by decide)
    rw [this]
    decide
  · exact h.2.2.2.2 payoutPrincipal mixedPayoutResult payoutDb "acct_8" (by decide) (by decide)
      (by decide)

/-- pyRound of an integer is that integer. -/
lemma pyRound_intCast (n : ℤ) : pyRound ((n : ℤ) : ℚ) = n := by
  unfold pyRound
  rw [Int.floor_intCast]
  norm_num

set_option maxHeartbeats 1600000 in
/-- The unrolled tier-selection loop is monotone in the amount. -/
lemma tierIndex_mono {a1 a2 : ℤ} (h : a1 ≤ a2) : tierIndex a1 ≤ tierIndex a2 := by
  unfold tierIndex
  split_ifs <;> omega

/-- usdTierFee beyond the table is the final tier fee. -/
lemma usdTierFee_ge8 {i : ℕ} (h : 8 ≤ i) : usdTierFee i = 10000 := by
  obtain ⟨k, rfl⟩ : ∃ k, i = k + 8 := ⟨i - 8, by omega⟩
  rfl

/-- Every currency string maps to one of the six configured conversion rates
(unknown currencies fall back to 1). -/
lemma usdToCurrencyRate_cases (s : String) :
    usdToCurrencyRate s = 1 ∨ usdToCurrencyRate s = 19/20 ∨ usdToCurrencyRate s = 4/5 ∨
    usdToCurrencyRate s = 37/20 ∨ usdToCurrencyRate s = 47/10 ∨ usdToCurrencyRate s = 95 := by
  unfold usdToCurrencyRate
  split_ifs <;> tauto

/-- One tier step never decreases the converted, human-friendly-rounded fee, for
each of the configured rates. -/
lemma tierFeeCents_step (fx : ℚ)
    (hfx : fx = 1 ∨ fx = 19/20 ∨ fx = 4/5 ∨ fx = 37/20 ∨ fx = 47/10 ∨ fx = 95) (i : ℕ) :
    tierFeeCents fx i ≤ tierFeeCents fx (i + 1) := by
  rcases Nat.lt_or_ge i 8 with hi | hi
  · rcases hfx with rfl | rfl | rfl | rfl | rfl | rfl <;>
    · interval_cases i <;>
        norm_num [tierFeeCents, usdTierFee, round_up_fee_major, pyRound, Int.fract,
          intCeil_eq_neg_floor_neg]
  · have h1 : usdTierFee i = 10000 := usdTierFee_ge8 hi
    have h2 : usdTierFee (i + 1) = 10000 := usdTierFee_ge8 (by omega)
    simp [tierFeeCents, h1, h2]

/-- The converted tier fee is monotone in the tier index. -/
lemma tierFeeCents_mono (fx : ℚ)
    (hfx : fx = 1 ∨ fx = 19/20 ∨ fx = 4/5 ∨ fx = 37/20 ∨ fx = 47/10 ∨ fx = 95) :
    Monotone (tierFeeCents fx) :=
  monotone_nat_of_le_succ (tierFeeCents_step fx hfx)

/-- The fixed-fee schedule is non-decreasing in the amount, for every currency. -/
lemma tier_fixed_fee_mono (c : String) {a1 a2 : ℤ} (h : a1 ≤ a2) :
    tier_fixed_fee a1 c ≤ tier_fixed_fee a2 c := by
  simp only [tier_fixed_fee]
  exact tierFeeCents_mono _ (usdToCurrencyRate_cases _) (tierIndex_mono h)

/-- With the default parameters (tier fixed fee, 0% service, 0% stripe), the quoted
total is the amount plus the tier fee. -/
lemma amount_with_fee_default_total (a : ℤ) (c : String) (h : 0 ≤ a) :
    (amount_with_fee a c none none none).map FeeQuote.total_cents =
      some (a + tier_fixed_fee a c) := by
  have hm : multiplier 0 settings.stripe_fee_percent = some 1 := by
    norm_num [multiplier, settings]
  have hround : pyRound (((a : ℚ) + ((tier_fixed_fee a c : ℤ) : ℚ)) * 1) =
      a + tier_fixed_fee a c := by
    rw [mul_one]
    rw [show ((a : ℚ) + ((tier_fixed_fee a c : ℤ) : ℚ)) =
        (((a + tier_fixed_fee a c : ℤ)) : ℚ) by push_cast; ring]
    exact pyRound_intCast _
  simp only [amount_with_fee, if_neg (not_lt.mpr h), hm, hround]
  rfl

/-- C9: fee monotonicity. For every currency, the quoted customer-facing total is
non-decreasing in the base amount, and the fixed-fee schedule itself (tier table,
currency conversion and human-friendly rounding steps included) is non-decreasing
in the amount. -/
theorem quote_total_monotone (c : String) (a1 a2 : ℤ) (h0 : 0 ≤ a1) (h12 : a1 ≤ a2) :
    (∃ t1 t2 : ℤ,
      (amount_with_fee a1 c none none none).map FeeQuote.total_cents = some t1 ∧
      (amount_with_fee a2 c none none none).map FeeQuote.total_cents = some t2 ∧
      t1 ≤ t2) ∧
    tier_fixed_fee a1 c ≤ tier_fixed_fee a2 c := by
  have hfee := tier_fixed_fee_mono c h12
  exact ⟨⟨a1 + tier_fixed_fee a1 c, a2 + tier_fixed_fee a2 c,
    amount_with_fee_default_total a1 c h0,
    amount_with_fee_default_total a2 c (le_trans h0 h12), by omega⟩, hfee⟩

/-- Witness for C9 at usd amounts 100 and 5000: totals 140 and 5200. -/
theorem quote_total_monotone_witness :
    (∃ t1 t2 : ℤ,
      (amount_with_fee 100 "usd" none none none).map FeeQuote.total_cents = some t1 ∧
      (amount_with_fee 5000 "usd" none none none).map FeeQuote.total_cents = some t2 ∧
      t1 ≤ t2) ∧
    tier_fixed_fee 100 "usd" ≤ tier_fixed_fee 5000 "usd" :=
  quote_total_monotone "usd" 100 5000 (by decide) (by decide)

/-- C6: the reversal tolerance fails on the code: the quote for base amount 100 usd
totals 140, but base_amount_from_total(140) = 83 (it inverts the legacy
settings-based formula with fixed_fee 50 and service percent 5, which
amount_with_fee no longer uses), 17 minor units away from 100 instead of ≤ 1. -/
theorem base_amount_reversal_gap :
    (amount_with_fee 100 "usd" none none none).map FeeQuote.total_cents = some 140 ∧
    base_amount_from_total 140 = some 83 ∧
    1 < ((100 : ℤ) - 83).natAbs := by
  refine ⟨?_, ?_, by decide⟩
  · simp only [amount_with_fee, tier_fixed_fee, normCurrency_usd, usdToCurrencyRate_usd]
    norm_num [multiplier, settings, tierFeeCents, usdTierFee, tierIndex, round_up_fee_major,
      pyRound, Int.fract, intCeil_eq_neg_floor_neg]
  · norm_num [base_amount_from_total, multiplier, settings, pyRound, Int.fract,
      intCeil_eq_neg_floor_neg]

end Payme
